import Mathlib

/-!
Verification of the broker-hierarchy / RBAC core of the CotizateAlgo backend.

The definitions below are a shallow embedding of the TypeScript services
`BrokerHierarchyService` (src/backend/src/services/brokerHierarchy.service.ts),
`PermissionService` (src/backend/src/services/permission.service.ts),
`UserRoleService` (userRole.service.ts) and `AuthService.register`
(src/backend/src/modules/auth/auth.service.ts).  Database tables are lists of
rows; the Prisma queries of the source are translated into list lookups over
those rows; the recursive SQL CTE used for hierarchy traversal is translated
into a fuel-bounded level-by-level expansion.  Infrastructure failures of the
raw descendant query are modelled by a failure-injection field on the database
state, mirroring the try/catch structure of the source.
-/

namespace CotizateAlgo

/-- Row of the brokers table; only id and parent_id are consulted by the
hierarchy queries. -/
structure Broker where
  id : String
  parentId : Option String
deriving Repr, DecidableEq

/-- Row of the profiles table; only id and broker_id are consulted by the
permission-evaluation entry points. -/
structure Profile where
  id : String
  brokerId : Option String
deriving Repr, DecidableEq

/-- Row of the roles table. -/
structure Role where
  id : String
  name : String
deriving Repr, DecidableEq

/-- Row of the user_roles join table, with its audit field. -/
structure UserRole where
  userId : String
  roleId : String
  assignedBy : String
deriving Repr, DecidableEq

/-- Row of the role_permissions join table, already joined with its
Permission row: the Prisma queries of the source only ever reach a
permission through its role_permissions row, filtering on the joined
(resource, action) pair. -/
structure RolePerm where
  roleId : String
  resource : String
  action : String
deriving Repr, DecidableEq

/-- The relational store.  `descFailures` lists the broker ids for which the
raw recursive-CTE descendant query raises an infrastructure error: it models
the `catch` paths of the source, where any persistence failure of that one
raw query is caught inside `getDescendantBrokerIds`. -/
structure Db where
  brokers : List Broker
  profiles : List Profile
  roles : List Role
  userRoles : List UserRole
  rolePermissions : List RolePerm
  descFailures : List String
deriving Repr, DecidableEq

/-- JavaScript falsiness of an optional string: `undefined`/`null` and the
empty string are falsy. -/
def optFalsy (s : Option String) : Bool :=
  s = none ∨ s = some ""

/-- Lookup of a profile row by primary key (`prisma.profile.findUnique`). -/
def findProfile (db : Db) (userId : String) : Option Profile :=
  db.profiles.find? fun pr => pr.id = userId

/-! ## BrokerHierarchyService -/

/-- One round of the recursive CTE of `getDescendantBrokerIds`: the rows of
the brokers table whose parent_id joins a row of the current level, one
output row per matching pair (UNION ALL keeps duplicates). -/
def childRowsOf (db : Db) (frontier : List String) : List String :=
  (frontier.map fun fid =>
    ((db.brokers.filter fun b => b.parentId = some fid).map fun b => b.id)).flatten

/-- Fuel-bounded expansion of the recursive CTE, emitting the levels in
order.  Fuel 10 reproduces the `bh.level < 10` guard of the SQL: levels 0
through 10 are emitted, deeper rows are never generated. -/
def cteExpand (db : Db) : Nat → List String → List String
  | 0, frontier => frontier
  | fuel + 1, frontier => frontier ++ cteExpand db fuel (childRowsOf db frontier)

/-- The raw recursive descendant query of `getDescendantBrokerIds` (the
`prisma.$queryRaw` call).  Errors for broker ids listed in
`db.descFailures`. -/
def rawDescendantQuery (db : Db) (brokerId : String) : Except Unit (List String) :=
  if brokerId ∈ db.descFailures then Except.error ()
  else Except.ok
    (cteExpand db 10 ((db.brokers.filter fun b => b.id = brokerId).map fun b => b.id))

/-- Embeds `BrokerHierarchyService.getDescendantBrokerIds`: empty input
returns the empty list; a failing raw query is caught and degrades to
`[brokerId]` (the fail-open read fallback of the source). -/
def getDescendantBrokerIds (db : Db) (brokerId : String) : List String :=
  if brokerId = "" then []
  else
    match rawDescendantQuery db brokerId with
    | Except.ok ids => ids
    | Except.error _ => [brokerId]

/-- Embeds `BrokerHierarchyService.canUserAccessBroker`: false on any empty
id, true on identity, otherwise membership of the target in the descendant
set of the user broker. -/
def canUserAccessBroker (db : Db) (userBrokerId targetBrokerId : String) : Bool :=
  if userBrokerId = "" ∨ targetBrokerId = "" then false
  else if userBrokerId = targetBrokerId then true
  else (getDescendantBrokerIds db userBrokerId).contains targetBrokerId

/-- Embeds `BrokerHierarchyService.validateNoCycles`: any empty id returns
true, a self-parent returns false, otherwise the proposed parent must not
appear among the descendants of the proposed child.  The catch branch of the
source (return false on error) is unreachable because
`getDescendantBrokerIds` already catches every query failure internally. -/
def validateNoCycles (db : Db) (parentId childId : String) : Bool :=
  if parentId = "" ∨ childId = "" then true
  else if parentId = childId then false
  else !((getDescendantBrokerIds db childId).contains parentId)

/-! ## PermissionService -/

/-- Structural embedding of the JavaScript `string.split(':')` used on
permission strings: split on every colon, an empty input yielding the
singleton list of the empty string. -/
def jsSplitColonAux : List Char → List Char → List String
  | [], acc => [String.mk acc.reverse]
  | c :: rest, acc =>
    if c = ':' then String.mk acc.reverse :: jsSplitColonAux rest []
    else jsSplitColonAux rest (c :: acc)

/-- The list of colon-separated parts of a permission string, exactly as
`permission.split(':')` produces it. -/
def jsSplitColon (p : String) : List String := jsSplitColonAux p.toList []

/-- Does some role held by the user carry a role_permissions row whose joined
permission has exactly this (resource, action) pair?  This is the shape of
the `prisma.userRole.findFirst` query of `userHasPermission` and of the
`userRoles.some(... rolePermissions.some ...)` base-permission checks of
`userHasPermissionInBroker` and `getEffectiveBrokerIds`. -/
def hasPermissionRow (db : Db) (userId resource action : String) : Bool :=
  db.userRoles.any fun ur =>
    ur.userId == userId &&
    db.rolePermissions.any fun rp =>
      rp.roleId == ur.roleId && rp.resource == resource && rp.action == action

/-- Error message thrown for a malformed two-part permission string. -/
def invalidPermissionMsg : String :=
  "Invalid permission format. Use \"resource:action\""

/-- Error message thrown for a malformed scoped permission string. -/
def invalidScopedPermissionMsg : String :=
  "Invalid permission format. Use \"resource:action\" or \"resource:action:scope\""

/-- Embeds `PermissionService.userHasPermission`.  The source destructures
`permission.split(':')` into its first two parts only, so a permission
string with more than one colon loses everything after the second part. -/
def userHasPermission (db : Db) (userId permission : String) : Except String Bool :=
  let parts := jsSplitColon permission
  let resource := (parts[0]?).getD ""
  let action := (parts[1]?).getD ""
  if resource = "" ∨ action = "" then Except.error invalidPermissionMsg
  else Except.ok (hasPermissionRow db userId resource action)

/-- Splitting a permission string on the FIRST colon only, with the action
keeping any further colons.  Modelled from the spec sentence for
`userHasPermission` ("string split on first `:`, action may itself contain
further colons e.g. `assign:roles`"); it exists only to be compared with the
split the source actually performs. -/
def splitOnFirstColon (p : String) : String × String :=
  match jsSplitColon p with
  | [] => ("", "")
  | r :: rest => (r, String.intercalate ":" rest)

/-- The permission check the spec describes for `userHasPermission`: some
role held by the user carries a Permission row whose (resource, action) pair
equals the first-colon split of the permission string.  Spec-side definition
for comparison with `userHasPermission`. -/
def specUserHasPermissionFirstColon (db : Db) (userId permission : String) : Bool :=
  hasPermissionRow db userId (splitOnFirstColon permission).1 (splitOnFirstColon permission).2

/-- The try-block of `PermissionService.userHasPermissionInBroker`: parse the
permission string into at most three colon-separated parts, load the profile,
require the base (resource, action) permission, then resolve the scope:
no scope delegates to `canUserAccessBroker` except that a broker-less
profile short-circuits to true; scope `own` requires exact equality of the
profile broker id with the target; any other scope yields false. -/
def userHasPermissionInBrokerBody (db : Db)
    (userId permission targetBrokerId : String) : Except String Bool :=
  let parts := jsSplitColon permission
  let resource := (parts[0]?).getD ""
  let action := (parts[1]?).getD ""
  let scope := parts[2]?
  if resource = "" ∨ action = "" then Except.error invalidScopedPermissionMsg
  else
    match findProfile db userId with
    | none => Except.ok false
    | some prof =>
      if !(hasPermissionRow db userId resource action) then Except.ok false
      else if optFalsy scope then
        if optFalsy prof.brokerId then Except.ok true
        else Except.ok (canUserAccessBroker db (prof.brokerId.getD "") targetBrokerId)
      else if scope = some "own" then Except.ok (prof.brokerId = some targetBrokerId)
      else Except.ok false

/-- Embeds `PermissionService.userHasPermissionInBroker`: the whole body runs
inside a try/catch whose catch logs and returns false, so the thrown
validation error never reaches the caller. -/
def userHasPermissionInBroker (db : Db)
    (userId permission targetBrokerId : String) : Bool :=
  match userHasPermissionInBrokerBody db userId permission targetBrokerId with
  | Except.ok b => b
  | Except.error _ => false

/-- The try-block of `PermissionService.getEffectiveBrokerIds`: same parsing
and base-permission gate, then an empty list for a broker-less profile, the
own broker alone for scope `own`, and the full descendant set otherwise. -/
def getEffectiveBrokerIdsBody (db : Db) (userId permission : String) :
    Except String (List String) :=
  let parts := jsSplitColon permission
  let resource := (parts[0]?).getD ""
  let action := (parts[1]?).getD ""
  let scope := parts[2]?
  if resource = "" ∨ action = "" then Except.error invalidScopedPermissionMsg
  else
    match findProfile db userId with
    | none => Except.ok []
    | some prof =>
      if !(hasPermissionRow db userId resource action) then Except.ok []
      else if optFalsy prof.brokerId then Except.ok []
      else if scope = some "own" then Except.ok [prof.brokerId.getD ""]
      else Except.ok (getDescendantBrokerIds db (prof.brokerId.getD ""))

/-- Embeds `PermissionService.getEffectiveBrokerIds`: the catch of the source
turns any thrown error into the empty list. -/
def getEffectiveBrokerIds (db : Db) (userId permission : String) : List String :=
  match getEffectiveBrokerIdsBody db userId permission with
  | Except.ok ids => ids
  | Except.error _ => []

/-! ## UserRoleService -/

/-- The broker-access guard shared by the role-mutation methods of
`UserRoleService`.  The source guard is
`if (allowedBrokerIds && user.brokerId) { if (!allowedBrokerIds.includes(user.brokerId)) throw }`:
it only fires when the caller supplied a list (any array, even an empty one,
is truthy) and the target user has a truthy broker id. -/
def brokerGuardDenies (user : Profile) (allowedBrokerIds : Option (List String)) : Bool :=
  match allowedBrokerIds, user.brokerId with
  | some allowed, some b => if b = "" then false else !(allowed.contains b)
  | _, _ => false

/-- Embeds `UserRoleService.assignRoleToUser`: role existence, user
existence, the broker-access guard, the duplicate-role check, then insertion
of the user_roles row. -/
def assignRoleToUser (db : Db) (userId roleId assignedBy : String)
    (allowedBrokerIds : Option (List String)) : Except String Db :=
  if !(db.roles.any fun r => r.id == roleId) then Except.error "Role not found"
  else
    match findProfile db userId with
    | none => Except.error "User not found"
    | some user =>
      if brokerGuardDenies user allowedBrokerIds then
        Except.error "Access denied: outside broker hierarchy"
      else if db.userRoles.any fun ur => ur.userId == userId && ur.roleId == roleId then
        Except.error "User already has this role"
      else Except.ok { db with userRoles := db.userRoles ++ [⟨userId, roleId, assignedBy⟩] }

/-- Embeds `UserRoleService.removeRoleFromUser`: user existence, the
broker-access guard, the has-role check, then deletion of the row. -/
def removeRoleFromUser (db : Db) (userId roleId : String)
    (allowedBrokerIds : Option (List String)) : Except String Db :=
  match findProfile db userId with
  | none => Except.error "User not found"
  | some user =>
    if brokerGuardDenies user allowedBrokerIds then
      Except.error "Access denied: outside broker hierarchy"
    else if !(db.userRoles.any fun ur => ur.userId == userId && ur.roleId == roleId) then
      Except.error "User does not have this role"
    else
      let remaining := db.userRoles.filter fun ur =>
        !(ur.userId == userId && ur.roleId == roleId)
      Except.ok { db with userRoles := remaining }

/-- Embeds `UserRoleService.replaceUserRoles`: user existence, the
broker-access guard, an all-roles-exist check (`findMany` returns each
matching role once, so its length matches the request only when the
requested ids are distinct and all present), then the delete-all /
insert-all transaction. -/
def replaceUserRoles (db : Db) (userId : String) (roleIds : List String)
    (assignedBy : String) (allowedBrokerIds : Option (List String)) : Except String Db :=
  match findProfile db userId with
  | none => Except.error "User not found"
  | some user =>
    if brokerGuardDenies user allowedBrokerIds then
      Except.error "Access denied: outside broker hierarchy"
    else if (roleIds.dedup.filter fun rid => db.roles.any fun r => r.id == rid).length
        ≠ roleIds.length then
      Except.error "One or more roles not found"
    else
      let replaced := (db.userRoles.filter fun ur => ur.userId != userId)
        ++ roleIds.map fun rid => ⟨userId, rid, assignedBy⟩
      Except.ok { db with userRoles := replaced }

/-! ## AuthService.register -/

/-- Broker row as created by registration (name and absent parent matter for
the registration scenario). -/
structure RegBroker where
  id : String
  name : String
  parentId : Option String
deriving Repr, DecidableEq

/-- State touched by registration: the auth-provider user list and the
broker, profile and user_roles tables. -/
structure RegState where
  authUsers : List String
  brokers : List RegBroker
  profiles : List Profile
  userRoles : List UserRole
deriving Repr, DecidableEq

/-- Failure injection for the three external calls registration performs. -/
structure RegFailure where
  signUpFails : Bool
  brokerCreateFails : Bool
  profileCreateFails : Bool
deriving Repr, DecidableEq

/-- Result of registration: the state that persists, plus the error the
caller observes when registration failed. -/
structure RegOutcome where
  state : RegState
  error : Option String
deriving Repr, DecidableEq

/-- The tail of the register try-block: create the profile row (attached to
the broker id when one was created), with the catch deleting the
auth-provider user on failure.  No user_roles row is ever written. -/
def registerProfileStep (s : RegState) (f : RegFailure) (newUserId : String)
    (brokerId : Option String) : RegOutcome :=
  if f.profileCreateFails then
    ⟨{ s with authUsers := s.authUsers.filter (fun u => u ≠ newUserId) },
      some "Failed to create user profile"⟩
  else ⟨{ s with profiles := s.profiles ++ [⟨newUserId, brokerId⟩] }, none⟩

/-- Embeds `AuthService.register`: sign up with the auth provider, then,
with no surrounding transaction, create the broker (when a brokerName was
given) and the profile as two independent writes.  The catch around the
try-block deletes the auth-provider user and rethrows; it does not undo a
broker row that was already created. -/
def register (s : RegState) (f : RegFailure) (newUserId newBrokerId : String)
    (brokerName : Option String) : RegOutcome :=
  if f.signUpFails then ⟨s, some "Failed to create user"⟩
  else
    let s1 : RegState := { s with authUsers := s.authUsers ++ [newUserId] }
    match brokerName with
    | none => registerProfileStep s1 f newUserId none
    | some name =>
      if f.brokerCreateFails then
        ⟨{ s1 with authUsers := s1.authUsers.filter (fun u => u ≠ newUserId) },
          some "Failed to create user profile"⟩
      else
        let s2 : RegState :=
          { s1 with brokers := s1.brokers ++ [⟨newBrokerId, name, none⟩] }
        registerProfileStep s2 f newUserId (some newBrokerId)

/-! ## Concrete database states used by the theorems -/

/-- An entirely empty store. -/
def emptyDb : Db := ⟨[], [], [], [], [], []⟩

/-- One user u1 holding role r1 which carries the seeded Permission row
(resource users, action assign:roles). -/
def dbC1 : Db :=
  ⟨[], [⟨"u1", none⟩], [⟨"r1", "broker_admin"⟩], [⟨"u1", "r1", "seed"⟩],
    [⟨"r1", "users", "assign:roles"⟩], []⟩

/-- Two unrelated brokers a and b, with the raw descendant query failing for
broker b (infrastructure failure injection). -/
def dbC3 : Db := ⟨[⟨"a", none⟩, ⟨"b", none⟩], [], [], [], [], ["b"]⟩

/-- A chain of fifteen brokers, each the parent of the next. -/
def chainDb : Db :=
  ⟨[⟨"n0", none⟩, ⟨"n1", some "n0"⟩, ⟨"n2", some "n1"⟩, ⟨"n3", some "n2"⟩,
    ⟨"n4", some "n3"⟩, ⟨"n5", some "n4"⟩, ⟨"n6", some "n5"⟩, ⟨"n7", some "n6"⟩,
    ⟨"n8", some "n7"⟩, ⟨"n9", some "n8"⟩, ⟨"n10", some "n9"⟩, ⟨"n11", some "n10"⟩,
    ⟨"n12", some "n11"⟩, ⟨"n13", some "n12"⟩, ⟨"n14", some "n13"⟩],
   [], [], [], [], []⟩

/-- Broker B with child C; user u1 belongs to B and holds the base
permission (clients, read) through role r1. -/
def dbC4 : Db :=
  ⟨[⟨"B", none⟩, ⟨"C", some "B"⟩], [⟨"u1", some "B"⟩], [⟨"r1", "agent"⟩],
    [⟨"u1", "r1", "seed"⟩], [⟨"r1", "clients", "read"⟩], []⟩

/-- A system user u1 with no broker, holding the base permission
(users, read) through role r1. -/
def dbC6 : Db :=
  ⟨[], [⟨"u1", none⟩], [⟨"r1", "sys"⟩], [⟨"u1", "r1", "seed"⟩],
    [⟨"r1", "users", "read"⟩], []⟩

/-- A broker-less user u1 and an assignable role r1. -/
def dbC10 : Db := ⟨[], [⟨"u1", none⟩], [⟨"r1", "agent"⟩], [], [], []⟩

/-- Empty initial registration state. -/
def regS0 : RegState := ⟨[], [], [], []⟩

/-! ## Helper lemmas on the hierarchy traversal -/

/-- Every id produced by one CTE round is the id of a row of the brokers
table. -/
lemma mem_childRowsOf {db : Db} {frontier : List String} {y : String}
    (h : y ∈ childRowsOf db frontier) : ∃ b ∈ db.brokers, b.id = y := by
  unfold childRowsOf at h
  rw [List.mem_flatten] at h
  obtain ⟨l, hl, hy⟩ := h
  rw [List.mem_map] at hl
  obtain ⟨fid, _, rfl⟩ := hl
  rw [List.mem_map] at hy
  obtain ⟨b, hb, rfl⟩ := hy
  rw [List.mem_filter] at hb
  exact ⟨b, hb.1, rfl⟩

/-- Every id produced by the bounded CTE expansion is either in the starting
frontier or the id of a brokers-table row. -/
lemma mem_cteExpand {db : Db} {y : String} :
    ∀ {n : Nat} {frontier : List String}, y ∈ cteExpand db n frontier →
      y ∈ frontier ∨ ∃ b ∈ db.brokers, b.id = y := by
  intro n
  induction n with
  | zero => intro f h; exact Or.inl h
  | succ n ih =>
    intro f h
    rw [cteExpand] at h
    rcases List.mem_append.mp h with h1 | h2
    · exact Or.inl h1
    · rcases ih h2 with h3 | h3
      · exact Or.inr (mem_childRowsOf h3)
      · exact Or.inr h3

/-- Every id returned by `getDescendantBrokerIds` is either the queried id
itself or the id of a brokers-table row. -/
lemma mem_getDescendantBrokerIds {db : Db} {x y : String}
    (h : y ∈ getDescendantBrokerIds db x) :
    y = x ∨ ∃ b ∈ db.brokers, b.id = y := by
  unfold getDescendantBrokerIds at h
  by_cases hx : x = ""
  · rw [if_pos hx] at h
    exact absurd h (List.not_mem_nil y)
  · rw [if_neg hx] at h
    unfold rawDescendantQuery at h
    by_cases hf : x ∈ db.descFailures
    · rw [if_pos hf] at h
      simp only [List.mem_singleton] at h
      exact Or.inl h
    · rw [if_neg hf] at h
      rcases mem_cteExpand h with h1 | h1
      · right
        simp only [List.mem_map, List.mem_filter] at h1
        obtain ⟨b, ⟨hb, _⟩, rfl⟩ := h1
        exact ⟨b, hb, rfl⟩
      · exact Or.inr h1

/-! ## Claim theorems -/

/-- C3: the claim asserts that when the underlying descendant fetch for the
child fails, `validateNoCycles` fails closed to false.  Evaluated at the
failing input parentId a, childId b with the raw descendant query erroring
for b: `getDescendantBrokerIds` swallows the error into the fallback `[b]`,
so `validateNoCycles` never sees a failure and returns true. -/
theorem validateNoCycles_true_on_descendant_fetch_failure :
    rawDescendantQuery dbC3 "b" = Except.error () ∧
    getDescendantBrokerIds dbC3 "b" = ["b"] ∧
    validateNoCycles dbC3 "a" "b" = true :=
  ⟨rfl, rfl, rfl⟩

/-- C5: hierarchy monotonicity of `canUserAccessBroker` over
`getDescendantBrokerIds`, for stores whose broker rows carry nonempty ids
(ids are database-generated UUIDs): membership of the target in the
descendant set of the user broker gives access, and a distinct target
outside that set is denied. -/
theorem hierarchy_monotonicity (db : Db) (X Y : String)
    (hwf : ∀ b ∈ db.brokers, b.id ≠ "") :
    (Y ∈ getDescendantBrokerIds db X → canUserAccessBroker db X Y = true) ∧
    (Y ∉ getDescendantBrokerIds db X → Y ≠ X → canUserAccessBroker db X Y = false) := by
  constructor
  · intro hY
    have hX : X ≠ "" := by
      intro hx
      rw [hx] at hY
      simp [getDescendantBrokerIds] at hY
    by_cases hXY : X = Y
    · unfold canUserAccessBroker
      rw [if_neg (by rw [← hXY]; simp [hX]), if_pos hXY]
    · have hYne : Y ≠ "" := by
        rcases mem_getDescendantBrokerIds hY with h | ⟨b, hb, hid⟩
        · exact absurd h.symm hXY
        · rw [← hid]; exact hwf b hb
      unfold canUserAccessBroker
      rw [if_neg (by simp [hX, hYne]), if_neg hXY]
      exact List.elem_eq_true_of_mem hY
  · intro hY hYX
    unfold canUserAccessBroker
    by_cases h1 : X = "" ∨ Y = ""
    · rw [if_pos h1]
    · rw [if_neg h1, if_neg (fun h => hYX h.symm)]
      by_contra hc
      rw [Bool.not_eq_false] at hc
      exact hY (List.mem_of_elem_eq_true hc)

/-- C5 witness: the theorem applied to the fifteen-broker chain at X = n0,
Y = n5, whose membership hypothesis holds by evaluation. -/
theorem hierarchy_monotonicity_witness :
    canUserAccessBroker chainDb "n0" "n5" = true :=
  (hierarchy_monotonicity chainDb "n0" "n5" (by decide)).1 (by decide)

/-- C8: on the chain of fifteen brokers each parented to the previous one,
`getDescendantBrokerIds` of the root returns exactly the root and the ten
levels below it: length 11, not 16, with level-11 brokers silently absent
rather than reported as an error. -/
theorem depth_cap_truncates_fifteen_chain :
    (getDescendantBrokerIds chainDb "n0").length = 11 ∧
    (getDescendantBrokerIds chainDb "n0").length ≤ 11 ∧
    (getDescendantBrokerIds chainDb "n0").length ≠ 16 ∧
    "n10" ∈ getDescendantBrokerIds chainDb "n0" ∧
    "n11" ∉ getDescendantBrokerIds chainDb "n0" := by
  refine ⟨rfl, ?_, ?_, ?_, ?_⟩ <;> decide

/-- C9 counterexample: the claim asserts self-parent rejection for every id
including the empty string, but the empty-id check of the source precedes
the self-parent check, so the fully empty self-parent call returns true. -/
theorem validateNoCycles_empty_self_returns_true :
    validateNoCycles emptyDb "" "" = true :=
  rfl

/-- C9 amended: `validateNoCycles X X` is false for every nonempty id X,
while the empty id is accepted by the preceding empty-id check. -/
theorem validateNoCycles_rejects_nonempty_self (db : Db) (X : String) (hX : X ≠ "") :
    validateNoCycles db X X = false := by
  unfold validateNoCycles
  rw [if_neg (by simp [hX]), if_pos rfl]

/-- C9 witness: the amended theorem applied at the concrete nonempty id x. -/
theorem validateNoCycles_rejects_nonempty_self_witness :
    validateNoCycles emptyDb "x" "x" = false :=
  validateNoCycles_rejects_nonempty_self emptyDb "x" (by decide)

/-- Evaluation of the scoped-permission body on a permission string whose
third colon-separated part is the literal own scope, for a user whose
profile is present and who holds the base permission. -/
lemma userHasPermissionInBrokerBody_own_eval (db : Db) (u p t : String)
    (prof : Profile) (r a : String)
    (hr : (jsSplitColon p)[0]? = some r) (hrne : r ≠ "")
    (ha : (jsSplitColon p)[1]? = some a) (hane : a ≠ "")
    (hs : (jsSplitColon p)[2]? = some "own")
    (hp : findProfile db u = some prof)
    (hbase : hasPermissionRow db u r a = true) :
    userHasPermissionInBrokerBody db u p t
      = Except.ok (decide (prof.brokerId = some t)) := by
  simp only [userHasPermissionInBrokerBody, hr, ha, hs, Option.getD_some, hp,
    hbase, optFalsy]
  simp [hrne, hane]

/-- C4: with the own scope, `userHasPermissionInBroker` grants access
exactly when the target broker id equals the broker id of the profile of
the user, and in particular denies every descendant broker other than the
own one, for any user holding the base permission. -/
theorem ownScope_requires_exact_broker_match (db : Db) (u p t : String)
    (prof : Profile) (r a : String)
    (hr : (jsSplitColon p)[0]? = some r) (hrne : r ≠ "")
    (ha : (jsSplitColon p)[1]? = some a) (hane : a ≠ "")
    (hs : (jsSplitColon p)[2]? = some "own")
    (hp : findProfile db u = some prof)
    (hbase : hasPermissionRow db u r a = true) :
    (userHasPermissionInBroker db u p t = true ↔ prof.brokerId = some t) ∧
    (∀ d, d ∈ getDescendantBrokerIds db (prof.brokerId.getD "") →
      prof.brokerId ≠ some d → userHasPermissionInBroker db u p d = false) := by
  have heval : ∀ x, userHasPermissionInBroker db u p x
      = decide (prof.brokerId = some x) := by
    intro x
    unfold userHasPermissionInBroker
    rw [userHasPermissionInBrokerBody_own_eval db u p x prof r a hr hrne ha hane hs hp hbase]
  constructor
  · rw [heval t]
    exact decide_eq_true_iff
  · intro d _ hne
    rw [heval d]
    exact decide_eq_false hne

/-- C4 witness: the theorem applied at the concrete store dbC4, user u1,
permission clients:read:own.  The user belongs to broker B, so access to B
is granted and access to the strict descendant C is denied. -/
theorem ownScope_requires_exact_broker_match_witness :
    userHasPermissionInBroker dbC4 "u1" "clients:read:own" "B" = true ∧
    userHasPermissionInBroker dbC4 "u1" "clients:read:own" "C" = false := by
  have h := ownScope_requires_exact_broker_match dbC4 "u1" "clients:read:own" "B"
    ⟨"u1", some "B"⟩ "clients" "read" rfl (by decide) rfl (by decide) rfl rfl rfl
  have h2 := ownScope_requires_exact_broker_match dbC4 "u1" "clients:read:own" "C"
    ⟨"u1", some "B"⟩ "clients" "read" rfl (by decide) rfl (by decide) rfl rfl rfl
  exact ⟨h.1.mpr rfl, h2.2 "C" (by decide) (by decide)⟩

/-- C6: a user whose profile has no broker id (a system user), holding the
base permission of a scope-less permission string, is granted
`userHasPermissionInBroker` for every target broker id: the broker-less
profile short-circuits to true before any hierarchy lookup. -/
theorem system_user_unscoped_permission (db : Db) (u p t : String)
    (prof : Profile) (r a : String)
    (hr : (jsSplitColon p)[0]? = some r) (hrne : r ≠ "")
    (ha : (jsSplitColon p)[1]? = some a) (hane : a ≠ "")
    (hs : (jsSplitColon p)[2]? = none)
    (hp : findProfile db u = some prof)
    (hb : prof.brokerId = none)
    (hbase : hasPermissionRow db u r a = true) :
    userHasPermissionInBroker db u p t = true := by
  unfold userHasPermissionInBroker
  simp only [userHasPermissionInBrokerBody, hr, ha, hs, Option.getD_some, hp,
    hbase, optFalsy, hb]
  simp [hrne, hane]

/-- C6 witness: the theorem applied to the concrete system user u1 of dbC6,
who holds users:read, against an arbitrary concrete target broker id. -/
theorem system_user_unscoped_permission_witness :
    userHasPermissionInBroker dbC6 "u1" "users:read" "anyBroker" = true :=
  system_user_unscoped_permission dbC6 "u1" "users:read" "anyBroker"
    ⟨"u1", none⟩ "users" "read" rfl (by decide) rfl (by decide) rfl rfl rfl rfl

/-- C7 counterexample: on the malformed permission string with no colon, the
claim asserts that `userHasPermissionInBroker` and `getEffectiveBrokerIds`
raise a validation error to their caller, but both construct the error
inside their own try/catch and return false, respectively the empty list. -/
theorem malformed_permission_not_raised_by_scoped_entry_points :
    userHasPermissionInBrokerBody emptyDb "u" "users" "b"
      = Except.error invalidScopedPermissionMsg ∧
    userHasPermissionInBroker emptyDb "u" "users" "b" = false ∧
    getEffectiveBrokerIdsBody emptyDb "u" "users"
      = Except.error invalidScopedPermissionMsg ∧
    getEffectiveBrokerIds emptyDb "u" "users" = [] :=
  ⟨rfl, rfl, rfl, rfl⟩

/-- C7 amended: on every malformed permission string (empty or missing
resource or action part after the colon split), `userHasPermission` raises
the validation error to its caller, while `userHasPermissionInBroker` and
`getEffectiveBrokerIds` raise it only inside their try-block and degrade to
false, respectively the empty list. -/
theorem malformed_permission_policy (db : Db) (u p t : String)
    (hm : ((jsSplitColon p)[0]?).getD "" = "" ∨ ((jsSplitColon p)[1]?).getD "" = "") :
    userHasPermission db u p = Except.error invalidPermissionMsg ∧
    userHasPermissionInBrokerBody db u p t = Except.error invalidScopedPermissionMsg ∧
    userHasPermissionInBroker db u p t = false ∧
    getEffectiveBrokerIdsBody db u p = Except.error invalidScopedPermissionMsg ∧
    getEffectiveBrokerIds db u p = [] := by
  have h1 : userHasPermission db u p = Except.error invalidPermissionMsg := by
    unfold userHasPermission
    simp only []
    rw [if_pos hm]
  have h2 : userHasPermissionInBrokerBody db u p t
      = Except.error invalidScopedPermissionMsg := by
    unfold userHasPermissionInBrokerBody
    simp only []
    rw [if_pos hm]
  have h4 : getEffectiveBrokerIdsBody db u p
      = Except.error invalidScopedPermissionMsg := by
    unfold getEffectiveBrokerIdsBody
    simp only []
    rw [if_pos hm]
  refine ⟨h1, h2, ?_, h4, ?_⟩
  · unfold userHasPermissionInBroker
    rw [h2]
  · unfold getEffectiveBrokerIds
    rw [h4]

/-- C7 witness: the amended theorem applied at the malformed permission
string with an empty resource part. -/
theorem malformed_permission_policy_witness :
    userHasPermission emptyDb "w" ":roles" = Except.error invalidPermissionMsg ∧
    userHasPermissionInBrokerBody emptyDb "w" ":roles" "b"
      = Except.error invalidScopedPermissionMsg ∧
    userHasPermissionInBroker emptyDb "w" ":roles" "b" = false ∧
    getEffectiveBrokerIdsBody emptyDb "w" ":roles"
      = Except.error invalidScopedPermissionMsg ∧
    getEffectiveBrokerIds emptyDb "w" ":roles" = [] :=
  malformed_permission_policy emptyDb "w" ":roles" "b" (by decide)

/-- C1: the claim asserts that `userHasPermission` matches the pair obtained
by splitting on the FIRST colon only, so that users:assign:roles matches a
stored Permission row (users, assign:roles).  Evaluated at the failing
input: user u1 holds exactly that stored row, the first-colon split finds
it, yet `userHasPermission` destructures the full colon split into its
first two parts and queries (users, assign), returning false. -/
theorem userHasPermission_splits_on_every_colon :
    specUserHasPermissionFirstColon dbC1 "u1" "users:assign:roles" = true ∧
    userHasPermission dbC1 "u1" "users:assign:roles" = Except.ok false ∧
    userHasPermission dbC1 "u1" "users:assign" = Except.ok false :=
  ⟨rfl, rfl, rfl⟩

/-- C2 counterexample: registering with brokerName Acme while profile
creation fails leaves the freshly created Acme broker persisted (the claim
asserts zero Broker rows persist on partial failure), and even a fully
successful registration persists no UserRole row (the claim asserts exactly
one broker_admin UserRole row). -/
theorem register_partial_failure_persists_broker :
    (register regS0 ⟨false, false, true⟩ "u1" "b1" (some "Acme")).error
      = some "Failed to create user profile" ∧
    (register regS0 ⟨false, false, true⟩ "u1" "b1" (some "Acme")).state.brokers
      = [⟨"b1", "Acme", none⟩] ∧
    (register regS0 ⟨false, false, false⟩ "u1" "b1" (some "Acme")).state.userRoles
      = [] :=
  ⟨rfl, rfl, rfl⟩

/-- C2 amended: registration with a brokerName is not transactional and
assigns no role.  On success exactly one new parent-less Broker and one
Profile attached to it persist, with no UserRole row; when profile creation
fails after broker creation, the Broker row persists as an orphan while the
auth-provider user is deleted and no Profile or UserRole row persists. -/
theorem register_acme_scenario :
    register regS0 ⟨false, false, false⟩ "u1" "b1" (some "Acme")
      = ⟨⟨["u1"], [⟨"b1", "Acme", none⟩], [⟨"u1", some "b1"⟩], []⟩, none⟩ ∧
    register regS0 ⟨false, false, true⟩ "u1" "b1" (some "Acme")
      = ⟨⟨[], [⟨"b1", "Acme", none⟩], [], []⟩, some "Failed to create user profile"⟩ :=
  ⟨rfl, rfl⟩

/-- C10: for a target user whose profile has no broker id, the three
role-mutation operations of UserRoleService produce the same outcome for
every caller-supplied allowedBrokerIds value (including an empty list and
an absent one): the broker-access guard only fires for users with a broker. -/
theorem brokerless_user_role_ops_ignore_allowed_list
    (db : Db) (userId roleId assignedBy : String) (roleIds : List String)
    (alw alw2 : Option (List String)) (prof : Profile)
    (hp : findProfile db userId = some prof) (hb : prof.brokerId = none) :
    assignRoleToUser db userId roleId assignedBy alw
      = assignRoleToUser db userId roleId assignedBy alw2 ∧
    removeRoleFromUser db userId roleId alw
      = removeRoleFromUser db userId roleId alw2 ∧
    replaceUserRoles db userId roleIds assignedBy alw
      = replaceUserRoles db userId roleIds assignedBy alw2 := by
  have hg : ∀ o, brokerGuardDenies prof o = false := by
    intro o
    unfold brokerGuardDenies
    rw [hb]
    cases o <;> rfl
  refine ⟨?_, ?_, ?_⟩
  · simp [assignRoleToUser, hp, hg]
  · simp [removeRoleFromUser, hp, hg]
  · simp [replaceUserRoles, hp, hg]

/-- C10 witness: the theorem applied at the concrete broker-less user u1 of
dbC10, comparing an empty allowedBrokerIds list with an absent one. -/
theorem brokerless_user_role_ops_ignore_allowed_list_witness :
    assignRoleToUser dbC10 "u1" "r1" "boss" (some [])
      = assignRoleToUser dbC10 "u1" "r1" "boss" none ∧
    removeRoleFromUser dbC10 "u1" "r1" (some [])
      = removeRoleFromUser dbC10 "u1" "r1" none ∧
    replaceUserRoles dbC10 "u1" ["r1"] "boss" (some [])
      = replaceUserRoles dbC10 "u1" ["r1"] "boss" none :=
  brokerless_user_role_ops_ignore_allowed_list dbC10 "u1" "r1" "boss" ["r1"]
    (some []) none ⟨"u1", none⟩ rfl rfl

end CotizateAlgo
